import Mathlib

/-!
Shallow embedding of the jarvis-web-agent orchestration core, translated from
the Python sources, together with proofs settling the specification claims.

Python integers and indices are modelled by Nat/Int; Python dictionaries by
association lists; exceptions by Except; external collaborators (the standard
library pseudo-random generator, sha256, urllib URL parsing, the Playwright
page object, the Redis client) by executable deterministic models whose only
properties used in proofs are the ones the source relies on.
-/

/-! ### Model of the Python standard library pseudo-random generator

`random.Random` is an external library collaborator (`src/stealth/fingerprint.py`
imports `random`).  The model keeps the state as a natural number stepped by a
linear congruential rule.  The only properties of the real generator that the
source depends on for the verified claims are: a draw is a deterministic
function of the state, and seeding fixes the state. -/

def rngStep (s : Nat) : Nat :=
  (6364136223846793005 * s + 1442695040888963407) % 18446744073709551616

/-- One raw draw: the drawn value together with the successor state. -/
def rngDraw (s : Nat) : Nat × Nat := (s % 4294967296, rngStep s)

/-- Model of `rng.choice(l)`: pick one element, with an explicit fallback for
the empty list (never used on an empty list by the source). -/
def rngChoiceD {α : Type} (s : Nat) (l : List α) (dflt : α) : α × Nat :=
  let d := rngDraw s
  (l.getD (d.1 % l.length) dflt, d.2)

/-- Model of `rng.randint(a, b)` (inclusive bounds). -/
def rngRandint (s : Nat) (a b : Nat) : Nat × Nat :=
  let d := rngDraw s
  (a + d.1 % (b + 1 - a), d.2)

/-- Model of `rng.random()` scaled to thousandths: the comparisons in the
source (`< 0.1`, `> 0.3`) become comparisons against 100 and 300. -/
def rngMillis (s : Nat) : Nat × Nat :=
  let d := rngDraw s
  (d.1 % 1000, d.2)

/-- Model of `rng.sample(pop, k)`: k draws without replacement. -/
def rngSample (s : Nat) (pop : List String) : Nat → List String × Nat
  | 0 => ([], s)
  | k + 1 =>
    if pop.isEmpty then ([], s)
    else
      let d := rngDraw s
      let i := d.1 % pop.length
      let x := pop.getD i ("")
      let r := rngSample d.2 (pop.eraseIdx i) k
      (x :: r.1, r.2)

/-- Model of `int(hashlib.sha256(identity.encode()).hexdigest()[:8], 16)` from
`FingerprintGenerator.generate`.  sha256 is an external library; it is modelled
by a deterministic 32-bit string hash, determinism being the only property the
proofs use. -/
def hashStr (s : String) : Nat :=
  s.data.foldl (fun h c => (h * 31 + c.toNat) % 4294967296) 7

/-! ### FingerprintGenerator (src/stealth/fingerprint.py) -/

/-- `SCREEN_RESOLUTIONS`, with the popularity weights scaled to percent
(0.35 becomes 35, and so on; the weights sum to 100). -/
def SCREEN_RESOLUTIONS : List ((Nat × Nat) × Nat) :=
  [((1920, 1080), 35), ((1366, 768), 20), ((1536, 864), 10), ((1440, 900), 8),
   ((1280, 720), 7), ((2560, 1440), 6), ((1680, 1050), 5), ((1600, 900), 4),
   ((3840, 2160), 3), ((2560, 1080), 2)]

def CHROME_VERSIONS : List String :=
  ["120.0.0.0", "119.0.0.0", "118.0.0.0", "121.0.0.0"]

def WEBGL_RENDERERS : List (String × String) :=
  [("Intel Inc.", "Intel Iris OpenGL Engine"),
   ("Google Inc. (Intel)", "ANGLE (Intel, Intel(R) UHD Graphics 630 Direct3D11 vs_5_0 ps_5_0)"),
   ("Google Inc. (NVIDIA)", "ANGLE (NVIDIA, NVIDIA GeForce GTX 1060 6GB Direct3D11 vs_5_0 ps_5_0)"),
   ("Google Inc. (AMD)", "ANGLE (AMD, AMD Radeon RX 580 Series Direct3D11 vs_5_0 ps_5_0)"),
   ("Intel Inc.", "Intel(R) UHD Graphics 620")]

def COMMON_FONTS : List String :=
  ["Arial", "Verdana", "Times New Roman", "Georgia", "Courier New",
   "Trebuchet MS", "Comic Sans MS", "Impact", "Arial Black",
   "Lucida Console", "Tahoma", "Palatino Linotype", "Segoe UI"]

def MAC_VERSIONS : List String :=
  ["10_15_7", "11_6_0", "12_4_0", "13_1_0", "14_0_0"]

/-- Weighted pick used by `rng.choices(resolutions, weights=...)`: walk the
cumulative percent weights with a draw below 100. -/
def pickWeighted (r : Nat) : List ((Nat × Nat) × Nat) → Nat × Nat
  | [] => (1920, 1080)
  | (res, w) :: rest => if r < w then res else pickWeighted (r - w) rest

/-- Result of `FingerprintGenerator._generate_screen`.  The device scale
factor (a float drawn from 1.0 / 1.25 / 1.5 / 2.0) is kept in hundredths. -/
structure ScreenParams where
  width : Nat
  height : Nat
  screenWidth : Nat
  screenHeight : Nat
  colorDepth : Nat
  deviceScaleFactorHundredths : Nat
deriving DecidableEq, Repr

/-- `FingerprintGenerator._generate_screen`, drawing in the source order:
weighted resolution choice, then the browser chrome allowance
`randint(70, 120)`, then (only for widths of at least 2560) the scale factor. -/
def generateScreen (s : Nat) : ScreenParams × Nat :=
  let d := rngDraw s
  let wh := pickWeighted (d.1 % 100) SCREEN_RESOLUTIONS
  let chromeDraw := rngRandint d.2 70 120
  let viewportHeight := wh.2 - chromeDraw.1
  let dprPick :=
    if 2560 ≤ wh.1 then rngChoiceD chromeDraw.2 [100, 125, 150, 200] 100
    else (100, chromeDraw.2)
  (⟨wh.1, viewportHeight, wh.1, wh.2, 24, dprPick.1⟩, dprPick.2)

/-- `FingerprintGenerator._generate_user_agent`: platform draw
(`rng.random() > 0.3` means Windows), then for the Mac branch a version
choice; the Chrome version is interpolated into the fixed template. -/
def generateUserAgent (chromeVersion : String) (s : Nat) : String × Nat :=
  let d := rngMillis s
  if 300 < d.1 then
    ("Mozilla/5.0 (Windows NT 10.0; Win64; x64) AppleWebKit/537.36 (KHTML, like Gecko) Chrome/"
      ++ chromeVersion ++ " Safari/537.36", d.2)
  else
    let mv := rngChoiceD d.2 MAC_VERSIONS ("10_15_7")
    ("Mozilla/5.0 (Macintosh; Intel Mac OS X " ++ mv.1
      ++ ") AppleWebKit/537.36 (KHTML, like Gecko) Chrome/"
      ++ chromeVersion ++ " Safari/537.36", mv.2)

/-- `FingerprintGenerator._select_fonts`: the three guaranteed core fonts plus
`rng.sample` of `randint(5, 10)` further fonts (arguments drawn left to right,
so the count is drawn before the sample). -/
def selectFonts (s : Nat) : List String × Nat :=
  let core : List String := ["Arial", "Times New Roman", "Courier New"]
  let pop := COMMON_FONTS.filter (fun f => !(core.contains f))
  let k := rngRandint s 5 10
  let extra := rngSample k.2 pop k.1
  (core ++ extra.1, extra.2)

/-- Python `hex(n)` (the canvas seed fallback `hex(rng.getrandbits(64))`). -/
def hexOfNat (n : Nat) : String :=
  "0x" ++ String.mk (Nat.toDigits 16 n)

/-- The complete fingerprint dictionary returned by
`FingerprintGenerator.generate`.  The audio context noise, a float drawn from
`rng.uniform(0.0001, 0.001)`, is kept as its underlying raw draw. -/
structure Fingerprint where
  viewportWidth : Nat
  viewportHeight : Nat
  screenWidth : Nat
  screenHeight : Nat
  colorDepth : Nat
  deviceScaleFactorHundredths : Nat
  userAgent : String
  chromeVersion : String
  hardwareConcurrency : Nat
  deviceMemory : Nat
  webglVendor : String
  webglRenderer : String
  fonts : List String
  timezone : String
  hasTouch : Bool
  isMobile : Bool
  languages : List String
  platform : String
  canvasSeed : String
  audioDraw : Nat
deriving DecidableEq, Repr

/-- The canvas seed expression `identity or hex(rng.getrandbits(64))`: the
`or` short-circuits, so the generator state advances only when `identity` is
falsy (absent or the empty string). -/
def canvasSeedOf (identity : Option String) (s : Nat) : String × Nat :=
  match identity with
  | some idv => if idv = "" then let d := rngDraw s; (hexOfNat d.1, d.2) else (idv, s)
  | none => let d := rngDraw s; (hexOfNat d.1, d.2)

/-- Body of `FingerprintGenerator.generate` after the generator has been
created, drawing in the evaluation order of the source: screen, Chrome
version, WebGL pair, then the dictionary literal entries (user agent,
hardware concurrency, device memory, fonts, touch flag, platform, canvas
seed, audio noise). -/
def generateFrom (defaultTimezone : String) (identity : Option String) (r0 : Nat) : Fingerprint :=
  let p1 := generateScreen r0
  let screen := p1.1
  let p2 := rngChoiceD p1.2 CHROME_VERSIONS ("120.0.0.0")
  let chromeVersion := p2.1
  let p3 := rngChoiceD p2.2 WEBGL_RENDERERS ("", "")
  let webgl := p3.1
  let p4 := generateUserAgent chromeVersion p3.2
  let p5 := rngChoiceD p4.2 [4, 8, 12, 16] 4
  let p6 := rngChoiceD p5.2 [4, 8, 16, 32] 4
  let p7 := selectFonts p6.2
  let p8 := rngMillis p7.2
  let p9 := rngMillis p8.2
  let p10 := canvasSeedOf identity p9.2
  let p11 := rngDraw p10.2
  { viewportWidth := screen.width
    viewportHeight := screen.height
    screenWidth := screen.screenWidth
    screenHeight := screen.screenHeight
    colorDepth := screen.colorDepth
    deviceScaleFactorHundredths := screen.deviceScaleFactorHundredths
    userAgent := p4.1
    chromeVersion := chromeVersion
    hardwareConcurrency := p5.1
    deviceMemory := p6.1
    webglVendor := webgl.1
    webglRenderer := webgl.2
    fonts := p7.1
    timezone := defaultTimezone
    hasTouch := p8.1 < 100
    isMobile := false
    languages := ["en-US", "en"]
    platform := if 300 < p9.1 then ("Win32") else ("MacIntel")
    canvasSeed := p10.1
    audioDraw := p11.1 % 1000 }

/-- `FingerprintGenerator.generate`:  `if identity:` is Python truthiness, so
both an absent identity and the empty string take the unseeded branch, whose
fresh generator state is the `entropy` argument; a nonempty identity seeds the
generator from the hash of the identity and the entropy is ignored. -/
def generate (defaultTimezone : String) (entropy : Nat) (identity : Option String) : Fingerprint :=
  match identity with
  | some s =>
    if s = "" then generateFrom defaultTimezone identity entropy
    else generateFrom defaultTimezone identity (hashStr s)
  | none => generateFrom defaultTimezone identity entropy

/-! ### URL parsing (external collaborator `urllib.parse.urlparse`)

`SiteClassifier.classify` and `ProxyRouter.select` read `urlparse(url).netloc`.
The model reproduces the netloc rule of the library: a netloc is present only
when the input (or the part after the first `://`) starts the authority with
`//`; a bare domain such as `chase.com` has an empty netloc. -/

def listStartsWith : List Char → List Char → Bool
  | _, [] => true
  | [], _ :: _ => false
  | c :: cs, d :: ds => c = d && listStartsWith cs ds

/-- The remainder after the first occurrence of a (nonempty) pattern. -/
def afterSubstring : List Char → List Char → Option (List Char)
  | [], _ => none
  | c :: cs, pat =>
    if listStartsWith (c :: cs) pat then some ((c :: cs).drop pat.length)
    else afterSubstring cs pat

def netlocOf (url : String) : String :=
  let u := url.data
  let rest : Option (List Char) :=
    if listStartsWith u [Char.ofNat 47, Char.ofNat 47] then some (u.drop 2)
    else afterSubstring u [Char.ofNat 58, Char.ofNat 47, Char.ofNat 47]
  match rest with
  | some r => String.mk (r.takeWhile (fun c => c ≠ '/' ∧ c ≠ '?' ∧ c ≠ '#'))
  | none => ""

/-- Python `str.lower` for the ASCII domain strings handled here. -/
def strLower (s : String) : String := String.mk (s.data.map Char.toLower)

/-- Python `str.endswith`. -/
def strEndsWith (s suf : String) : Bool :=
  suf.data.length ≤ s.data.length &&
    s.data.drop (s.data.length - suf.data.length) = suf.data

/-- Python substring containment `needle in hay`. -/
def strContains (hay needle : String) : Bool :=
  (List.range (hay.toList.length + 1)).any
    (fun i => (hay.toList.drop i).take needle.toList.length = needle.toList)

/-! ### SiteClassifier (src/stealth/classifier.py) -/

inductive ProtectionLevel where
  | none
  | low
  | medium
  | high
  | authenticated
deriving DecidableEq, Repr

inductive SiteCategory where
  | banking
  | medical
  | government
  | ecommerce
  | social
  | news
  | general
  | internal
deriving DecidableEq, Repr

structure SiteClassification where
  domain : String
  protectionLevel : ProtectionLevel
  category : SiteCategory
  requiresResidential : Bool
  requiresSession : Bool
  useFlaresolverr : Bool
  notes : Option String
deriving DecidableEq, Repr

def HIGH_PROTECTION_DOMAINS : List String :=
  ["cloudflare.com", "discord.com", "medium.com",
   "ticketmaster.com", "stubhub.com", "nike.com",
   "footlocker.com", "hermes.com",
   "linkedin.com", "indeed.com"]

def MEDIUM_PROTECTION_DOMAINS : List String :=
  ["reddit.com", "stackoverflow.com", "twitch.tv",
   "twitter.com", "x.com", "instagram.com", "facebook.com"]

def BANKING_DOMAINS : List String :=
  ["chase.com", "bankofamerica.com", "wellsfargo.com", "citi.com",
   "usbank.com", "capitalone.com", "discover.com", "ally.com",
   "marcus.com", "schwab.com", "fidelity.com", "vanguard.com",
   "etrade.com", "robinhood.com"]

def MEDICAL_DOMAINS : List String :=
  ["mychart.com", "followmyhealth.com", "patientportal", "myhealth",
   "portal.epic", "athenahealth.com", "labcorp.com",
   "questdiagnostics.com", "cvs.com", "walgreens.com"]

def GOVERNMENT_DOMAINS : List String :=
  ["ssa.gov", "irs.gov", "healthcare.gov", "usa.gov", "dmv.gov",
   "txdmv.gov", "texas.gov", "uscis.gov", "state.gov"]

def INTERNAL_DOMAINS : List String :=
  ["stephenscode.dev", "sacvpn.com", "localhost", "127.0.0.1"]

/-- `SiteClassifier._matches_any`: exact match, dotted-suffix match, or
substring match, over every element of the set. -/
def matchesAny (domain : String) (domainSet : List String) : Bool :=
  domainSet.any (fun d =>
    domain = d || strEndsWith domain ("." ++ d) || strContains domain d)

/-- `SiteClassifier._classify_domain`: the ordered rule table. -/
def classifyDomain (domain : String) : SiteClassification :=
  if matchesAny domain INTERNAL_DOMAINS then
    ⟨domain, ProtectionLevel.none, SiteCategory.internal, false, false, false,
     some ("Internal site - direct access")⟩
  else if matchesAny domain BANKING_DOMAINS then
    ⟨domain, ProtectionLevel.authenticated, SiteCategory.banking, true, true, false,
     some ("Banking - use home IP, maintain session")⟩
  else if matchesAny domain MEDICAL_DOMAINS then
    ⟨domain, ProtectionLevel.authenticated, SiteCategory.medical, true, true, false,
     some ("Medical - use home IP, maintain session")⟩
  else if matchesAny domain GOVERNMENT_DOMAINS then
    ⟨domain, ProtectionLevel.medium, SiteCategory.government, true, true, false,
     some ("Government - use home IP")⟩
  else if matchesAny domain HIGH_PROTECTION_DOMAINS then
    ⟨domain, ProtectionLevel.high, SiteCategory.general, true, false, true,
     some ("Heavy protection - may need FlareSolverr")⟩
  else if matchesAny domain MEDIUM_PROTECTION_DOMAINS then
    ⟨domain, ProtectionLevel.medium, SiteCategory.social, true, false, false,
     some ("Standard Cloudflare - residential IP recommended")⟩
  else
    ⟨domain, ProtectionLevel.low, SiteCategory.general, false, false, false,
     some ("Standard site - stealth browser sufficient")⟩

/-- Domain normalization from `SiteClassifier.classify`: lower-case netloc
with a leading `www.` removed. -/
def normalizeDomain (url : String) : String :=
  let domain := strLower (netlocOf url)
  if listStartsWith domain.data [Char.ofNat 119, Char.ofNat 119, Char.ofNat 119, Char.ofNat 46]
  then String.mk (domain.data.drop 4) else domain

/-- The classifier cache `self._cache`, a Python dictionary modelled by an
association list where an insertion shadows older entries. -/
def ClassifierCache : Type := List (String × SiteClassification)

def cacheGet (cache : ClassifierCache) (domain : String) : Option SiteClassification :=
  (List.find? (fun e => e.1 = domain) cache).map (fun e => e.2)

/-- `SiteClassifier.classify`: normalize, consult the cache, otherwise
classify and cache the result.  The cache is threaded explicitly. -/
def classify (cache : ClassifierCache) (url : String) :
    SiteClassification × ClassifierCache :=
  let domain := normalizeDomain url
  match cacheGet cache domain with
  | some c => (c, cache)
  | none =>
    let c := classifyDomain domain
    (c, (domain, c) :: cache)

/-- `SiteClassifier.add_classification`: store an override under the given
domain key.  The keyword arguments default to `false` / `None` in the source
and are passed explicitly here. -/
def addClassification (cache : ClassifierCache) (domain : String)
    (protectionLevel : ProtectionLevel) (category : SiteCategory)
    (requiresResidential requiresSession useFlaresolverr : Bool)
    (notes : Option String) : ClassifierCache :=
  (domain, ⟨domain, protectionLevel, category, requiresResidential,
            requiresSession, useFlaresolverr, notes⟩) :: cache

/-! ### ProxyRouter (src/proxy/router.py) -/

/-- Python truthiness of an optional string (`if self._home_proxy:` and
similar guards): absent and empty strings are falsy. -/
def pyTruthy : Option String → Bool
  | Option.none => false
  | some s => if s = "" then false else true

/-- Router state from `ProxyRouter.__init__`: the configured home residential
proxy, the SACVPN node list, the cached per-node health flags, and the last
node handed out by the round-robin pick. -/
structure RouterState where
  homeProxy : Option String
  sacvpnNodes : List String
  nodeHealth : List (String × Bool)
  lastUsedNode : Option String
deriving DecidableEq, Repr

/-- `ProxyRouter._is_internal`: substring containment against the fixed
internal list. -/
def isInternal (domain : String) : Bool :=
  INTERNAL_DOMAINS.any (fun d => strContains domain d)

/-- `ProxyRouter._auto_select`.  The fall-through of the source is kept: a
high or medium protection site without a truthy home proxy falls through to
the trailing `return self._home_proxy`. -/
def autoSelect (homeProxy : Option String) (domain : String)
    (siteClassification : Option SiteClassification) : Option String :=
  match siteClassification with
  | Option.none => if isInternal domain then Option.none else homeProxy
  | some c =>
    if c.category = SiteCategory.internal then Option.none
    else if c.requiresResidential then
      if pyTruthy homeProxy then homeProxy else Option.none
    else if (c.protectionLevel = ProtectionLevel.high ∨
             c.protectionLevel = ProtectionLevel.medium) ∧ pyTruthy homeProxy then
      homeProxy
    else if c.protectionLevel = ProtectionLevel.none then Option.none
    else homeProxy

/-- `ProxyRouter._get_sacvpn_node`: filter to healthy nodes (unknown nodes
count as healthy), fall back to all nodes when none is healthy, exclude the
previously used node unless it is the only candidate, then pick with the
module generator and remember the pick. -/
def getSacvpnNode (st : RouterState) (rng : Nat) : Option String × RouterState × Nat :=
  if st.sacvpnNodes.isEmpty then (Option.none, st, rng)
  else
    let healthy0 := st.sacvpnNodes.filter
      (fun n => (((st.nodeHealth.find? (fun e => e.1 = n)).map (fun e => e.2)).getD true))
    let healthy := if healthy0.isEmpty then st.sacvpnNodes else healthy0
    let available0 := healthy.filter (fun n => !(st.lastUsedNode = some n : Bool))
    let available := if available0.isEmpty then healthy else available0
    let d := rngDraw rng
    let node := available.getD (d.1 % available.length) ("")
    (some ("socks5://" ++ node), { st with lastUsedNode := some node }, d.2)

/-- `ProxyRouter._rotate_proxy`: a uniform pick among the truthy home proxy
plus all SACVPN nodes. -/
def rotateProxy (st : RouterState) (rng : Nat) : Option String × Nat :=
  let allProxies :=
    (if pyTruthy st.homeProxy then [st.homeProxy.getD ("")] else [])
      ++ st.sacvpnNodes.map (fun n => "socks5://" ++ n)
  if allProxies.isEmpty then (Option.none, rng)
  else
    let d := rngDraw rng
    (some (allProxies.getD (d.1 % allProxies.length) ("")), d.2)

/-- `ProxyRouter.select`: mode dispatch.  An unrecognized mode logs a warning
and returns no proxy.  The result carries the possibly updated router state
and generator state. -/
def ProxyRouter.select (st : RouterState) (rng : Nat) (url : String) (mode : String)
    (siteClassification : Option SiteClassification) : Option String × RouterState × Nat :=
  let domain := strLower (netlocOf url)
  if mode = "direct" then (Option.none, st, rng)
  else if mode = "home" then (st.homeProxy, st, rng)
  else if mode = "sacvpn" then getSacvpnNode st rng
  else if mode = "rotate" then
    let r := rotateProxy st rng
    (r.1, st, r.2)
  else if mode = "auto" then (autoSelect st.homeProxy domain siteClassification, st, rng)
  else (Option.none, st, rng)

/-- The auto-mode decision procedure exactly as the specification words it,
for comparison with `autoSelect`: internal domain means no proxy; a site
requiring a residential address gets the residential endpoint if configured,
else no proxy; high or medium protection prefers the residential endpoint if
available; no protection means no proxy; otherwise the residential endpoint
if available, else no proxy. -/
def autoSelectSpec (homeProxy : Option String) (c : SiteClassification) : Option String :=
  if c.category = SiteCategory.internal then Option.none
  else if c.requiresResidential then
    if pyTruthy homeProxy then homeProxy else Option.none
  else if (c.protectionLevel = ProtectionLevel.high ∨
           c.protectionLevel = ProtectionLevel.medium) ∧ pyTruthy homeProxy then
    homeProxy
  else if c.protectionLevel = ProtectionLevel.none then Option.none
  else if pyTruthy homeProxy then homeProxy else Option.none

/-! ### BrowserPool (src/browser/pool.py)

`acquire` is an async context manager: the body runs inside
`async with self._semaphore`, the active count is incremented on entry and
decremented in a `finally` block.  The concurrency is modelled by traces of
acquire and release events over a counting-semaphore state: an acquire event
is enabled only when a lease slot is free (a caller at a full semaphore
suspends, so no valid interleaving contains its acquire before a release). -/

structure PoolState where
  active : Nat
  totalRequests : Nat
deriving DecidableEq, Repr

inductive PoolEvent where
  | acquire
  | release
deriving DecidableEq, Repr

/-- One scheduler step: entering the acquire scope (guarded by the semaphore,
incrementing the counters per lines 109-111 of the source) or leaving it
(the `finally` decrement). -/
def poolStep (maxBrowsers : Nat) (s : PoolState) : PoolEvent → Option PoolState
  | PoolEvent.acquire =>
    if s.active < maxBrowsers then some ⟨s.active + 1, s.totalRequests + 1⟩
    else Option.none
  | PoolEvent.release => some ⟨s.active - 1, s.totalRequests⟩

/-- Run a whole event trace from a state; an invalid trace (an acquire at a
full semaphore) yields no state. -/
def poolRun (maxBrowsers : Nat) (s : PoolState) : List PoolEvent → Option PoolState
  | [] => some s
  | e :: es =>
    match poolStep maxBrowsers s e with
    | some s1 => poolRun maxBrowsers s1 es
    | Option.none => Option.none

/-- The sequential shape of one `acquire` scope: counters are bumped on
entry, the body runs to either a value or an exception, and the `finally`
block decrements the active count on both exits. -/
def acquireScope (s : PoolState) (body : Except String Unit) :
    PoolState × Except String Unit :=
  let s1 : PoolState := ⟨s.active + 1, s.totalRequests + 1⟩
  match body with
  | Except.ok u => (⟨s1.active - 1, s1.totalRequests⟩, Except.ok u)
  | Except.error e => (⟨s1.active - 1, s1.totalRequests⟩, Except.error e)

/-! ### Action executor (src/api/routes/browse.py)

`ActionType` is a string-valued enum, so the dispatch in `_execute_action`
compares string tags; the tag is modelled as a string.  The Playwright page
is an external collaborator: every primitive the executor calls is a field of
`PageOracle`, returning `Except` to model a raised exception.  The sleeps and
the pointer jitter coordinates of the human-like variants affect no result
value and are not modelled. -/

/-- The scroll keys read out of the free-form `options` dictionary. -/
structure ScrollOptions where
  direction : Option String
  amount : Option Int
deriving DecidableEq, Repr

/-- `BrowseAction`: tag, selector, value, timeout (the request schema allows
an explicit null timeout), and options. -/
structure BrowseAction where
  action : String
  selector : Option String
  value : Option String
  timeout : Option Nat
  options : Option ScrollOptions
deriving DecidableEq, Repr

/-- `ActionResult`: one per executed action. -/
structure ActionResult where
  action : String
  success : Bool
  result : Option String
  error : Option String
deriving DecidableEq, Repr

/-- The page primitives used by `_execute_action`, `_human_click` and
`_human_type`.  Element handles are numbered; results and screenshots are
strings. -/
structure PageOracle where
  click : Option String → Option Nat → Except String Unit
  fill : Option String → Option String → Option Nat → Except String Unit
  selectOption : Option String → Option String → Option Nat → Except String Unit
  waitForSelector : Option String → Option Nat → Except String Nat
  waitForTimeout : Option Nat → Except String Unit
  waitForLoadState : String → Option Nat → Except String Unit
  evaluate : Option String → Except String String
  screenshot : Except String String
  querySelector : Option String → Except String (Option Nat)
  innerText : Nat → Except String String
  hover : Option String → Option Nat → Except String Unit
  press : String → Option String → Option Nat → Except String Unit
  boundingBox : Nat → Except String (Option Unit)
  mouseMove : Except String Unit
  mouseClick : Except String Unit
  keyboardType : Char → Except String Unit

/-- `_human_click`: wait for the element, read its bounding box, and either
move-then-click the pointer or fall back to a plain click when the box is
absent. -/
def humanClick (o : PageOracle) (selector : Option String) : Except String Unit := do
  let el ← o.waitForSelector selector Option.none
  let box ← o.boundingBox el
  match box with
  | some _ => do
    o.mouseMove
    o.mouseClick
  | Option.none => o.click selector Option.none

/-- `_human_type`: click the field, then emit the value one keystroke at a
time.  Iterating a `None` value raises, exactly as `for char in None` does. -/
def humanType (o : PageOracle) (selector : Option String) (value : Option String) :
    Except String Unit := do
  o.click selector Option.none
  match value with
  | Option.none => Except.error ("TypeError: argument of type NoneType is not iterable")
  | some s => s.toList.forM (fun c => o.keyboardType c)

/-- The dispatch body of `_execute_action` (the part inside its `try`).  The
tag comparisons follow the source order; `if action.selector:` in the wait
branch is Python truthiness. -/
def executeActionCore (o : PageOracle) (a : BrowseAction) (humanLike : Bool) :
    Except String ActionResult :=
  if a.action = "click" then do
    (if humanLike then humanClick o a.selector else o.click a.selector a.timeout)
    pure ⟨"click", true, Option.none, Option.none⟩
  else if a.action = "type" then do
    (if humanLike then humanType o a.selector a.value
     else o.fill a.selector a.value a.timeout)
    pure ⟨"type", true, Option.none, Option.none⟩
  else if a.action = "select" then do
    o.selectOption a.selector a.value a.timeout
    pure ⟨"select", true, Option.none, Option.none⟩
  else if a.action = "wait" then do
    (if pyTruthy a.selector then do
       let _ ← o.waitForSelector a.selector a.timeout
       pure ()
     else o.waitForTimeout a.timeout)
    pure ⟨"wait", true, Option.none, Option.none⟩
  else if a.action = "wait_navigation" then do
    o.waitForLoadState ("networkidle") a.timeout
    pure ⟨"wait_navigation", true, Option.none, Option.none⟩
  else if a.action = "scroll" then do
    let direction := match a.options with
      | some opts => opts.direction.getD ("down")
      | Option.none => "down"
    let amount : Int := match a.options with
      | some opts => opts.amount.getD 500
      | Option.none => 500
    (if direction = "down" then do
       let _ ← o.evaluate (some ("window.scrollBy(0, " ++ toString amount ++ ")"))
       pure ()
     else if direction = "up" then do
       let _ ← o.evaluate (some ("window.scrollBy(0, -" ++ toString amount ++ ")"))
       pure ()
     else if direction = "bottom" then do
       let _ ← o.evaluate (some ("window.scrollTo(0, document.body.scrollHeight)"))
       pure ()
     else if direction = "top" then do
       let _ ← o.evaluate (some ("window.scrollTo(0, 0)"))
       pure ()
     else pure ())
    pure ⟨"scroll", true, Option.none, Option.none⟩
  else if a.action = "screenshot" then do
    let s ← o.screenshot
    pure ⟨"screenshot", true, some s, Option.none⟩
  else if a.action = "extract" then do
    let el ← o.querySelector a.selector
    match el with
    | some e => do
      let t ← o.innerText e
      pure ⟨"extract", true, some t, Option.none⟩
    | Option.none => pure ⟨"extract", false, Option.none, some ("Element not found")⟩
  else if a.action = "evaluate" then do
    let r ← o.evaluate a.value
    pure ⟨"evaluate", true, some r, Option.none⟩
  else if a.action = "hover" then do
    o.hover a.selector a.timeout
    pure ⟨"hover", true, Option.none, Option.none⟩
  else if a.action = "press" then do
    o.press (if pyTruthy a.selector then a.selector.getD ("") else ("body")) a.value a.timeout
    pure ⟨"press", true, Option.none, Option.none⟩
  else
    pure ⟨a.action, false, Option.none, some ("Unknown action type: " ++ a.action)⟩

/-- `_execute_action`: the surrounding `try`/`except` turns any raised
exception into a failed `ActionResult`; the function is total, so exactly one
result is produced and nothing propagates past the executor boundary. -/
def executeAction (o : PageOracle) (a : BrowseAction) (humanLike : Bool) : ActionResult :=
  match executeActionCore o a humanLike with
  | Except.ok r => r
  | Except.error e => ⟨a.action, false, Option.none, some e⟩

/-- The action loop of `browse_page` (lines 96-103): execute each action in
order and append its result; a failed result only logs a warning, the loop
never breaks. -/
def runActionsLoop (o : PageOracle) (humanLike : Bool) :
    List BrowseAction → List ActionResult → List ActionResult
  | [], acc => acc
  | a :: rest, acc => runActionsLoop o humanLike rest (acc ++ [executeAction o a humanLike])

/-- The action tags declared by the `ActionType` enum, in declaration order. -/
def declaredActionTags : List String :=
  ["click", "type", "select", "wait", "scroll", "screenshot", "extract",
   "evaluate", "wait_navigation", "hover", "press"]

/-- A page on which every primitive succeeds, used to exhibit that every
declared tag has a working dispatch branch. -/
def okOracle : PageOracle where
  click := fun _ _ => Except.ok ()
  fill := fun _ _ _ => Except.ok ()
  selectOption := fun _ _ _ => Except.ok ()
  waitForSelector := fun _ _ => Except.ok 0
  waitForTimeout := fun _ => Except.ok ()
  waitForLoadState := fun _ _ => Except.ok ()
  evaluate := fun _ => Except.ok ("42")
  screenshot := Except.ok ("iVBOR")
  querySelector := fun _ => Except.ok (some 0)
  innerText := fun _ => Except.ok ("text")
  hover := fun _ _ => Except.ok ()
  press := fun _ _ _ => Except.ok ()
  boundingBox := fun _ => Except.ok (some ())
  mouseMove := Except.ok ()
  mouseClick := Except.ok ()
  keyboardType := fun _ => Except.ok ()

/-! ### QueueManager (src/queue/manager.py)

Redis is an external collaborator.  The per-job hash records and the
`job_queue` sorted set are modelled by association lists: `hset` overwrites
the record of an existing key, `zadd` updates the score of an existing member
or inserts a new one, and `zpopmin` removes the member with the least
(score, member) pair, scores compared as integers and members in the
lexicographic string order. -/

/-- The fields that `QueueManager.enqueue` writes into the `job:{id}` hash. -/
structure JobRecord where
  data : String
  status : String
  priority : Int
deriving DecidableEq, Repr

/-- The durable store: the job hashes and the `job_queue` sorted set. -/
structure QueueStore where
  jobs : List (String × JobRecord)
  queue : List (String × Int)
deriving DecidableEq, Repr

/-- Redis `hset` at the whole-record granularity used by `enqueue`. -/
def hset (jobs : List (String × JobRecord)) (jobId : String) (r : JobRecord) :
    List (String × JobRecord) :=
  if jobs.any (fun e => e.1 = jobId) then
    jobs.map (fun e => if e.1 = jobId then (jobId, r) else e)
  else jobs ++ [(jobId, r)]

/-- Redis `zadd`: update the score of a present member, insert otherwise. -/
def zadd (q : List (String × Int)) (jobId : String) (p : Int) : List (String × Int) :=
  if q.any (fun e => e.1 = jobId) then
    q.map (fun e => if e.1 = jobId then (jobId, p) else e)
  else q ++ [(jobId, p)]

/-- The sorted-set order on (member, score) entries: by score, then member. -/
def entryLt (a b : String × Int) : Bool :=
  a.2 < b.2 || (a.2 = b.2 && a.1 < b.1)

/-- The least entry of a sorted set. -/
def minEntry : List (String × Int) → Option (String × Int)
  | [] => Option.none
  | e :: es => some (es.foldl (fun m x => if entryLt x m then x else m) e)

/-- Remove one specific entry. -/
def eraseEntry : List (String × Int) → (String × Int) → List (String × Int)
  | [], _ => []
  | x :: xs, e => if x = e then xs else x :: eraseEntry xs e

/-- Redis `zpopmin` with count 1: pop the least entry. -/
def zpopmin (q : List (String × Int)) : Option ((String × Int) × List (String × Int)) :=
  match minEntry q with
  | Option.none => Option.none
  | some e => some (e, eraseEntry q e)

/-- `QueueManager.enqueue`: write the hash record (data, pending status,
priority) and add the id to the priority queue with the priority as score. -/
def enqueue (st : QueueStore) (jobId : String) (jobData : String) (priority : Int) :
    QueueStore :=
  ⟨hset st.jobs jobId ⟨jobData, "pending", priority⟩, zadd st.queue jobId priority⟩

/-- `QueueManager.dequeue`: pop the least-score member, then read the job
hash; a missing hash yields no job (the queue entry is still consumed). -/
def dequeue (st : QueueStore) : Option (String × Int) × QueueStore :=
  match zpopmin st.queue with
  | Option.none => (Option.none, st)
  | some (e, rest) =>
    let st1 : QueueStore := ⟨st.jobs, rest⟩
    match (st.jobs.find? (fun j => j.1 = e.1)).map (fun j => j.2) with
    | some r => (some (e.1, r.priority), st1)
    | Option.none => (Option.none, st1)

/-- Priorities of the jobs yielded by n successive `dequeue` calls. -/
def dequeuePriorities : Nat → QueueStore → List Int
  | 0, _ => []
  | n + 1, st =>
    match dequeue st with
    | (some jp, st1) => jp.2 :: dequeuePriorities n st1
    | (Option.none, _) => []

/-- Store coherence: every queued member has a hash record whose priority
field equals its queue score.  `enqueue` establishes this (it writes the same
priority to both places) and `dequeue` preserves it. -/
def WFStore (st : QueueStore) : Prop :=
  ∀ e ∈ st.queue,
    ((st.jobs.find? (fun j => j.1 = e.1)).map (fun j => j.2.priority)) = some e.2

instance (st : QueueStore) : Decidable (WFStore st) :=
  List.decidableBAll _ st.queue

/-! ### Queue routes job store (src/api/routes/queue.py)

The in-memory `_jobs` dictionary maps job ids to mutable job dictionaries.
`submit_job` stores a pending record and schedules `_process_job` as a
background task holding a reference to the same dictionary; `cancel_job`
deletes the key from `_jobs` but does not unschedule the task.  The aliasing
is modelled by a heap of records addressed by job id, a list of keys present
in `_jobs`, and a list of still-pending background tasks. -/

inductive JobStatus where
  | pending
  | running
  | completed
  | failed
deriving DecidableEq, Repr

/-- The observable part of one job dictionary. -/
structure ApiJob where
  jobId : String
  status : JobStatus
  result : Option String
  error : Option String
deriving DecidableEq, Repr

structure ApiState where
  heap : List (String × ApiJob)
  store : List String
  tasks : List String
deriving DecidableEq, Repr

def heapGet (heap : List (String × ApiJob)) (jobId : String) : Option ApiJob :=
  (heap.find? (fun e => e.1 = jobId)).map (fun e => e.2)

/-- `submit_job`: create the pending record, put it in `_jobs`, and schedule
the background task. -/
def submitJob (s : ApiState) (jobId : String) : ApiState :=
  ⟨(jobId, ⟨jobId, JobStatus.pending, Option.none, Option.none⟩) :: s.heap,
   jobId :: s.store, s.tasks ++ [jobId]⟩

inductive CancelOutcome where
  | notFound
  | cannotCancelRunning
  | alreadyFinished
  | cancelled
deriving DecidableEq, Repr

/-- `cancel_job`: 404 for an absent id; running and finished jobs are
reported as not cancellable with the record untouched; a pending job is
deleted from `_jobs` (the scheduled task is not removed). -/
def cancelJob (s : ApiState) (jobId : String) : CancelOutcome × ApiState :=
  if jobId ∈ s.store then
    match heapGet s.heap jobId with
    | some j =>
      if j.status = JobStatus.running then (CancelOutcome.cannotCancelRunning, s)
      else if j.status = JobStatus.completed ∨ j.status = JobStatus.failed then
        (CancelOutcome.alreadyFinished, s)
      else (CancelOutcome.cancelled, ⟨s.heap, s.store.erase jobId, s.tasks⟩)
    | Option.none => (CancelOutcome.notFound, s)
  else (CancelOutcome.notFound, s)

/-- `get_job_status`: HTTP 404 when the id is not in `_jobs`, otherwise the
record.  The 500 branch is unreachable while the heap holds every stored
key. -/
def getJobStatus (s : ApiState) (jobId : String) : Except Nat ApiJob :=
  if jobId ∈ s.store then
    match heapGet s.heap jobId with
    | some j => Except.ok j
    | Option.none => Except.error 500
  else Except.error 404

def setStatus (heap : List (String × ApiJob)) (jobId : String) (st : JobStatus)
    (result error : Option String) : List (String × ApiJob) :=
  heap.map (fun e =>
    if e.1 = jobId then (e.1, { e.2 with status := st, result := result, error := error })
    else e)

/-- `_process_job` run for a scheduled task: the job dictionary it holds goes
running and then to a terminal state (the intermediate running state is
collapsed; only the terminal outcome matters to the claims).  This happens
whether or not the id is still a key of `_jobs`. -/
def processTask (s : ApiState) (jobId : String) (succeeds : Bool) : ApiState :=
  if jobId ∈ s.tasks then
    let terminal := if succeeds then JobStatus.completed else JobStatus.failed
    let res : Option String := if succeeds then some ("html") else Option.none
    let err : Option String := if succeeds then Option.none else some ("boom")
    ⟨setStatus s.heap jobId terminal res err, s.store, s.tasks.erase jobId⟩
  else s

/-- A concrete durable store built by three enqueues, used as the evaluation
point for the queue-ordering theorem. -/
def demoStore : QueueStore :=
  enqueue (enqueue (enqueue ⟨[], []⟩ ("jobA") ("payloadA") 5) ("jobB") ("payloadB") 2)
    ("jobC") ("payloadC") 7

/-- A concrete API state holding one freshly submitted pending job. -/
def cancelDemo : ApiState := submitJob ⟨[], [], []⟩ ("job1")

/-! ## Theorems -/

/-- Helper: a pool run from a state within the lease bound stays within the
lease bound. -/
theorem poolRun_active_le (maxBrowsers : Nat) :
    ∀ (trace : List PoolEvent) (s sFinal : PoolState), s.active ≤ maxBrowsers →
      poolRun maxBrowsers s trace = some sFinal → sFinal.active ≤ maxBrowsers := by
  intro trace
  induction trace with
  | nil =>
    intro s sFinal hle h
    simp only [poolRun, Option.some.injEq] at h
    subst h
    exact hle
  | cons e es ih =>
    intro s sFinal hle h
    cases e with
    | acquire =>
      by_cases hlt : s.active < maxBrowsers
      · simp [poolRun, poolStep, hlt] at h
        exact ih _ _ (by simp; omega) h
      · simp [poolRun, poolStep, hlt] at h
    | release =>
      simp [poolRun, poolStep] at h
      exact ih _ _ (by simp; omega) h

/-- C1: along every valid interleaving of acquire and release events the
number of simultaneously active leases never exceeds the configured maximum
(every intermediate state of a trace is the final state of a prefix trace,
so quantifying over all traces covers all intermediate states), and one
acquire scope restores the active count on both the success and the
exception exit of its body. -/
theorem pool_lease_bound_and_scoped_release :
    (∀ (maxBrowsers : Nat) (trace : List PoolEvent) (sFinal : PoolState),
       poolRun maxBrowsers ⟨0, 0⟩ trace = some sFinal →
       sFinal.active ≤ maxBrowsers) ∧
    (∀ (s : PoolState) (body : Except String Unit),
       ((acquireScope s body).1).active = s.active) := by
  constructor
  · intro maxBrowsers trace sFinal h
    exact poolRun_active_le maxBrowsers trace ⟨0, 0⟩ sFinal (by simp) h
  · intro s body
    cases body <;> simp [acquireScope]

/-- Witness for C1 at a concrete trace and scope. -/
theorem pool_lease_bound_witness :
    poolRun 1 ⟨0, 0⟩ [PoolEvent.acquire, PoolEvent.release, PoolEvent.acquire] =
      some ⟨1, 2⟩ ∧
    (PoolState.mk 1 2).active ≤ 1 ∧
    (acquireScope ⟨0, 5⟩ (Except.error ("boom"))).1.active = 0 :=
  ⟨by decide,
   pool_lease_bound_and_scoped_release.1 1
     [PoolEvent.acquire, PoolEvent.release, PoolEvent.acquire] ⟨1, 2⟩ (by decide),
   pool_lease_bound_and_scoped_release.2 ⟨0, 5⟩ (Except.error ("boom"))⟩

/-- Helper: the executor loop appends exactly the mapped results. -/
theorem runActionsLoop_eq_append_map (o : PageOracle) (humanLike : Bool) :
    ∀ (actions : List BrowseAction) (acc : List ActionResult),
      runActionsLoop o humanLike actions acc =
        acc ++ actions.map (fun a => executeAction o a humanLike) := by
  intro actions
  induction actions with
  | nil => intro acc; simp [runActionsLoop]
  | cons a rest ih => intro acc; simp [runActionsLoop, ih]

/-- C2: the executor loop of `browse_page` produces exactly the result of
`_execute_action` for each submitted action, in order, and hence one result
per action.  `executeAction` is a total function into `ActionResult` (the
surrounding `try`/`except` of the source is the final match), so no action
raises past the executor boundary, and a failed result leaves all later
actions executed exactly as they would be otherwise. -/
theorem executor_one_result_per_action (o : PageOracle) (humanLike : Bool)
    (actions : List BrowseAction) :
    runActionsLoop o humanLike actions [] =
      actions.map (fun a => executeAction o a humanLike) ∧
    (runActionsLoop o humanLike actions []).length = actions.length := by
  refine ⟨by simpa using runActionsLoop_eq_append_map o humanLike actions [], ?_⟩
  rw [runActionsLoop_eq_append_map]
  simp

/-- C4 counterexample: with the empty-string seed, `if identity:` takes the
unseeded branch, so the fingerprint depends on the fresh generator state and
the canvas seed is a random hex string rather than the seed itself. -/
theorem generate_empty_seed_counterexample :
    (generate ("America/Chicago") 0 (some (""))).canvasSeed ≠ "" ∧
    generate ("America/Chicago") 0 (some ("")) ≠
      generate ("America/Chicago") 12345 (some ("")) := by
  decide

/-- C4 (amended): for every nonempty seed string, two `generate` calls agree
on the whole fingerprint (in particular viewport, user agent, and canvas
seed), and the canvas seed is the seed string itself. -/
theorem generate_seeded_deterministic (tz s : String) (hs : s ≠ "") (e1 e2 : Nat) :
    generate tz e1 (some s) = generate tz e2 (some s) ∧
    (generate tz e1 (some s)).canvasSeed = s := by
  constructor
  · simp [generate, hs]
  · simp [generate, hs, generateFrom, canvasSeedOf]

/-- Witness for the amended C4 at a concrete nonempty seed. -/
theorem generate_seeded_deterministic_witness :
    ("alice" : String) ≠ "" ∧
    (generate ("America/Chicago") 0 (some ("alice")) =
       generate ("America/Chicago") 99 (some ("alice")) ∧
     (generate ("America/Chicago") 0 (some ("alice"))).canvasSeed = "alice") :=
  ⟨by decide, generate_seeded_deterministic ("America/Chicago") ("alice") (by decide) 0 99⟩

/-- C5 counterexample: `classify` parses its argument as a URL, and the bare
string `chase.com` has an empty netloc, so the classification falls through
to the default general/low rule instead of banking. -/
theorem classify_bare_domain_counterexample :
    (classify [] ("chase.com")).1.category = SiteCategory.general ∧
    SiteCategory.general ≠ SiteCategory.banking := by
  decide

/-- C5 (amended): classifying a URL whose host is chase.com (for example
`https://chase.com`) yields category banking, protection level authenticated,
requiresResidential, and requiresSession. -/
theorem classify_chase_url_banking :
    (classify [] ("https://chase.com")).1.category = SiteCategory.banking ∧
    (classify [] ("https://chase.com")).1.protectionLevel = ProtectionLevel.authenticated ∧
    (classify [] ("https://chase.com")).1.requiresResidential = true ∧
    (classify [] ("https://chase.com")).1.requiresSession = true := by
  decide

/-- C7: in auto mode with a classification, `_auto_select` follows exactly
the decision order the specification states, for every configuration in
which the residential endpoint is either absent or a nonempty URL. -/
theorem auto_select_follows_spec (homeProxy : Option String)
    (h : homeProxy ≠ some "") (domain : String) (c : SiteClassification) :
    autoSelect homeProxy domain (some c) = autoSelectSpec homeProxy c := by
  cases homeProxy with
  | none => simp [autoSelect, autoSelectSpec, pyTruthy]
  | some hp =>
    have hne : hp ≠ "" := by
      intro hh
      exact h (by rw [hh])
    simp [autoSelect, autoSelectSpec, pyTruthy, hne]

/-- Witness for C7 at a concrete endpoint, URL domain and classification. -/
theorem auto_select_follows_spec_witness :
    (some ("socks5://10.0.0.2:1080") : Option String) ≠ some "" ∧
    autoSelect (some ("socks5://10.0.0.2:1080")) ("example.com")
        (some (classifyDomain ("example.com"))) =
      autoSelectSpec (some ("socks5://10.0.0.2:1080")) (classifyDomain ("example.com")) :=
  ⟨by decide,
   auto_select_follows_spec (some ("socks5://10.0.0.2:1080")) (by decide) ("example.com")
     (classifyDomain ("example.com"))⟩

/-- C10: for every mode string outside the five recognized modes, `select`
returns no proxy (a direct connection) and leaves the router and generator
state unchanged; the function is total, so nothing is raised. -/
theorem select_unknown_mode_returns_direct (st : RouterState) (rng : Nat)
    (url mode : String) (cls : Option SiteClassification)
    (h : mode ∉ (["auto", "home", "sacvpn", "direct", "rotate"] : List String)) :
    ProxyRouter.select st rng url mode cls = (Option.none, st, rng) := by
  simp only [List.mem_cons, List.mem_singleton, not_or] at h
  obtain ⟨h1, h2, h3, h4, h5⟩ := h
  simp [ProxyRouter.select, h1, h2, h3, h4, h5]

/-- Witness for C10 at a concrete unknown mode. -/
theorem select_unknown_mode_witness :
    (("teleport" : String) ∉ (["auto", "home", "sacvpn", "direct", "rotate"] : List String)) ∧
    ProxyRouter.select ⟨Option.none, [], [], Option.none⟩ 0 ("https://example.com")
        ("teleport") Option.none =
      (Option.none, ⟨Option.none, [], [], Option.none⟩, 0) :=
  ⟨by decide,
   select_unknown_mode_returns_direct ⟨Option.none, [], [], Option.none⟩ 0
     ("https://example.com") ("teleport") Option.none (by decide)⟩

/-- C6: a second `classify` of the same URL returns the cached
classification with the cache unchanged (the hit takes the early return, so
nothing is recomputed), and after `add_classification` of a domain, any URL
normalizing to that domain classifies to the override. -/
theorem classify_cache_and_override :
    (∀ (cache : ClassifierCache) (url : String),
       classify (classify cache url).2 url =
         ((classify cache url).1, (classify cache url).2)) ∧
    (∀ (cache : ClassifierCache) (url d : String) (pl : ProtectionLevel)
       (cat : SiteCategory) (r1 r2 uf : Bool) (nts : Option String),
       normalizeDomain url = d →
       classify (addClassification cache d pl cat r1 r2 uf nts) url =
         (⟨d, pl, cat, r1, r2, uf, nts⟩,
          addClassification cache d pl cat r1 r2 uf nts)) := by
  constructor
  · intro cache url
    cases hc : cacheGet cache (normalizeDomain url) with
    | some c => simp [classify, hc]
    | none =>
      have h2 : cacheGet
          ((normalizeDomain url, classifyDomain (normalizeDomain url)) :: cache)
          (normalizeDomain url) = some (classifyDomain (normalizeDomain url)) := by
        rw [cacheGet, List.find?_cons_of_pos _ (by simp)]
        rfl
      simp [classify, hc, h2]
  · intro cache url d pl cat r1 r2 uf nts hd
    have h2 : cacheGet (addClassification cache d pl cat r1 r2 uf nts)
        (normalizeDomain url) = some ⟨d, pl, cat, r1, r2, uf, nts⟩ := by
      rw [addClassification, cacheGet, List.find?_cons_of_pos _ (by simp [hd])]
      rfl
    simp [classify, h2]

/-- Witness for C6 at a concrete cache, override and URL. -/
theorem classify_cache_and_override_witness :
    normalizeDomain ("https://example.com") = "example.com" ∧
    classify
        (addClassification [] ("example.com") ProtectionLevel.high SiteCategory.news
          true false false Option.none) ("https://example.com") =
      (⟨("example.com"), ProtectionLevel.high, SiteCategory.news, true, false, false,
        Option.none⟩,
       addClassification [] ("example.com") ProtectionLevel.high SiteCategory.news
         true false false Option.none) :=
  ⟨by decide,
   classify_cache_and_override.2 [] ("https://example.com") ("example.com")
     ProtectionLevel.high SiteCategory.news true false false Option.none (by decide)⟩

/-- C8: every declared action tag has a working dispatch branch (on a page
where every primitive succeeds, the branch returns success, in both behavior
modes), and any other tag yields a failed result carrying the nonempty
unknown-action error; `executeAction` is total, so it never raises. -/
theorem executor_dispatch_exhaustive :
    (∀ tag ∈ declaredActionTags, ∀ humanLike : Bool,
       (executeAction okOracle
         ⟨tag, some ("#id"), some ("v"), some 5000, Option.none⟩ humanLike).success = true) ∧
    (∀ (o : PageOracle) (a : BrowseAction) (humanLike : Bool),
       a.action ∉ declaredActionTags →
       executeAction o a humanLike =
         ⟨a.action, false, Option.none, some ("Unknown action type: " ++ a.action)⟩ ∧
       ("Unknown action type: " ++ a.action).length ≠ 0) := by
  constructor
  · intro tag htag humanLike
    simp only [declaredActionTags] at htag
    fin_cases htag <;> cases humanLike <;> decide
  · intro o a humanLike h
    simp only [declaredActionTags, List.mem_cons, List.mem_singleton, not_or] at h
    obtain ⟨h1, h2, h3, h4, h5, h6, h7, h8, h9, h10, h11, -⟩ := h
    constructor
    · simp [executeAction, executeActionCore, h1, h2, h3, h4, h5, h6, h7, h8, h9, h10,
        h11, pure, Except.pure]
    · have hdata : ("Unknown action type: " ++ a.action).data =
          "Unknown action type: ".data ++ a.action.data := rfl
      have hlen : ("Unknown action type: " ++ a.action).length =
          "Unknown action type: ".length + a.action.length := by
        show ("Unknown action type: " ++ a.action).data.length = _
        rw [hdata, List.length_append]
        rfl
      rw [hlen]
      have h21 : "Unknown action type: ".length = 21 := rfl
      omega

/-- Witness for C8 at a declared tag and at an unknown tag. -/
theorem executor_dispatch_exhaustive_witness :
    (("click" : String) ∈ declaredActionTags ∧
     (executeAction okOracle
       ⟨("click"), some ("#id"), some ("v"), some 5000, Option.none⟩ true).success = true) ∧
    (("frobnicate" : String) ∉ declaredActionTags ∧
     executeAction okOracle
         ⟨("frobnicate"), Option.none, Option.none, some 5000, Option.none⟩ true =
       ⟨("frobnicate"), false, Option.none,
        some ("Unknown action type: " ++ "frobnicate")⟩) :=
  ⟨⟨by decide, executor_dispatch_exhaustive.1 ("click") (by decide) true⟩,
   ⟨by decide,
    (executor_dispatch_exhaustive.2 okOracle
      ⟨("frobnicate"), Option.none, Option.none, some 5000, Option.none⟩ true (by decide)).1⟩⟩

/-- Helper: the fold inside `minEntry` returns one of its inputs. -/
theorem foldlMin_mem :
    ∀ (es : List (String × Int)) (m : String × Int),
      es.foldl (fun acc x => if entryLt x acc then x else acc) m ∈ m :: es := by
  intro es
  induction es with
  | nil => intro m; simp
  | cons x xs ih =>
    intro m
    rw [List.foldl_cons]
    have h := ih (if entryLt x m then x else m)
    by_cases hx : entryLt x m
    · rw [if_pos hx] at h ⊢
      rcases List.mem_cons.mp h with h | h
      · simp [List.mem_cons, h]
      · simp [List.mem_cons, h]
    · rw [if_neg hx] at h ⊢
      rcases List.mem_cons.mp h with h | h
      · simp [List.mem_cons, h]
      · simp [List.mem_cons, h]

/-- Helper: the fold inside `minEntry` reaches the least priority among its
inputs. -/
theorem foldlMin_le :
    ∀ (es : List (String × Int)) (m : String × Int),
      (es.foldl (fun acc x => if entryLt x acc then x else acc) m).2 ≤ m.2 ∧
      ∀ x ∈ es, (es.foldl (fun acc x => if entryLt x acc then x else acc) m).2 ≤ x.2 := by
  intro es
  induction es with
  | nil => intro m; simp
  | cons x xs ih =>
    intro m
    rw [List.foldl_cons]
    have h := ih (if entryLt x m then x else m)
    have hle : (if entryLt x m then x else m).2 ≤ m.2 ∧
        (if entryLt x m then x else m).2 ≤ x.2 := by
      by_cases hx : entryLt x m
      · rw [if_pos hx]
        simp only [entryLt, Bool.or_eq_true, Bool.and_eq_true, decide_eq_true_eq] at hx
        rcases hx with h1 | ⟨h1, _⟩
        · exact ⟨le_of_lt h1, le_refl _⟩
        · exact ⟨le_of_eq h1, le_refl _⟩
      · rw [if_neg hx]
        simp only [entryLt, Bool.or_eq_true, Bool.and_eq_true, decide_eq_true_eq,
          not_or, not_and] at hx
        exact ⟨le_refl _, le_of_not_lt hx.1⟩
    refine ⟨le_trans h.1 hle.1, ?_⟩
    intro y hy
    rcases List.mem_cons.mp hy with rfl | hy
    · exact le_trans h.1 hle.2
    · exact h.2 y hy

/-- Helper: `minEntry` returns a member of least priority. -/
theorem minEntry_spec {q : List (String × Int)} {e : String × Int}
    (h : minEntry q = some e) : e ∈ q ∧ ∀ f ∈ q, e.2 ≤ f.2 := by
  cases q with
  | nil => simp [minEntry] at h
  | cons x xs =>
    simp only [minEntry, Option.some.injEq] at h
    subst h
    refine ⟨foldlMin_mem xs x, ?_⟩
    intro f hf
    rcases List.mem_cons.mp hf with hfx | hf
    · rw [hfx]
      exact (foldlMin_le xs x).1
    · exact (foldlMin_le xs x).2 f hf

/-- Helper: removing a present entry shortens the list by one. -/
theorem eraseEntry_length {e : String × Int} :
    ∀ {q : List (String × Int)}, e ∈ q → (eraseEntry q e).length + 1 = q.length := by
  intro q
  induction q with
  | nil => intro h; cases h
  | cons x xs ih =>
    intro h
    by_cases hx : x = e
    · simp [eraseEntry, hx]
    · have hm : e ∈ xs := by
        rcases List.mem_cons.mp h with h | h
        · exact absurd h.symm hx
        · exact h
      have := ih hm
      simp only [eraseEntry, if_neg hx, List.length_cons]
      omega

/-- Helper: `eraseEntry` only removes. -/
theorem eraseEntry_subset {e : String × Int} :
    ∀ {q : List (String × Int)} {f : String × Int}, f ∈ eraseEntry q e → f ∈ q := by
  intro q
  induction q with
  | nil => intro f h; simp [eraseEntry] at h
  | cons x xs ih =>
    intro f h
    by_cases hx : x = e
    · simp only [eraseEntry, if_pos hx] at h
      exact List.mem_cons_of_mem x h
    · simp only [eraseEntry, if_neg hx] at h
      rcases List.mem_cons.mp h with hfx | h
      · rw [hfx]
        exact List.mem_cons_self x xs
      · exact List.mem_cons_of_mem x (ih h)

/-- Helper: everything `zpopmin` guarantees about a successful pop. -/
theorem zpopmin_spec {q rest : List (String × Int)} {e : String × Int}
    (h : zpopmin q = some (e, rest)) :
    e ∈ q ∧ (∀ f ∈ q, e.2 ≤ f.2) ∧ (∀ f ∈ rest, f ∈ q) ∧
    rest.length + 1 = q.length := by
  unfold zpopmin at h
  cases hm : minEntry q with
  | none => rw [hm] at h; cases h
  | some e2 =>
    rw [hm] at h
    simp only [Option.some.injEq, Prod.mk.injEq] at h
    obtain ⟨he, hrest⟩ := h
    subst he
    subst hrest
    have hs := minEntry_spec hm
    exact ⟨hs.1, hs.2, fun f hf => eraseEntry_subset hf, eraseEntry_length hs.1⟩

/-- Helper: after `hset` of a present key, the lookup finds the new record. -/
theorem find?_map_overwrite :
    ∀ (jobs : List (String × JobRecord)) (jobId : String) (r : JobRecord),
      jobs.any (fun e => e.1 = jobId) = true →
      (jobs.map (fun e => if e.1 = jobId then (jobId, r) else e)).find?
          (fun j => j.1 = jobId) = some (jobId, r) := by
  intro jobs
  induction jobs with
  | nil => intro jobId r h; simp at h
  | cons x xs ih =>
    intro jobId r h
    rw [List.map_cons]
    by_cases hx : x.1 = jobId
    · rw [if_pos hx, List.find?_cons_of_pos _ (by simp)]
    · rw [if_neg hx]
      have h2 : xs.any (fun e => e.1 = jobId) = true := by
        simp only [List.any_cons, Bool.or_eq_true, decide_eq_true_eq] at h
        rcases h with h | h
        · exact absurd h hx
        · exact h
      rw [List.find?_cons_of_neg _ (by simp [hx])]
      exact ih jobId r h2

/-- Helper: the lookup of a key after `hset` of that key yields the new
record. -/
theorem find?_hset_self (jobs : List (String × JobRecord)) (jobId : String) (r : JobRecord) :
    (hset jobs jobId r).find? (fun j => j.1 = jobId) = some (jobId, r) := by
  unfold hset
  by_cases hp : jobs.any (fun e => e.1 = jobId)
  · rw [if_pos hp]
    exact find?_map_overwrite jobs jobId r hp
  · rw [if_neg hp, List.find?_append]
    have hnone : jobs.find? (fun j => j.1 = jobId) = none := by
      rw [List.find?_eq_none]
      intro x hx hfalse
      apply hp
      rw [List.any_eq_true]
      exact ⟨x, hx, hfalse⟩
    rw [hnone]
    simp

/-- Helper: `hset` of one key leaves the lookup of any other key unchanged. -/
theorem find?_hset_other (jobs : List (String × JobRecord)) (jobId other : String)
    (r : JobRecord) (hne : other ≠ jobId) :
    (hset jobs jobId r).find? (fun j => j.1 = other) =
      jobs.find? (fun j => j.1 = other) := by
  unfold hset
  by_cases hp : jobs.any (fun e => e.1 = jobId)
  · rw [if_pos hp]
    clear hp
    induction jobs with
    | nil => rfl
    | cons x xs ih =>
      rw [List.map_cons]
      by_cases hx : x.1 = jobId
      · rw [if_pos hx]
        rw [List.find?_cons_of_neg _ (by simp [Ne.symm hne]),
          List.find?_cons_of_neg _ (by simp [hx, Ne.symm hne])]
        exact ih
      · rw [if_neg hx]
        by_cases ho : x.1 = other
        · rw [List.find?_cons_of_pos _ (by simp [ho]),
            List.find?_cons_of_pos _ (by simp [ho])]
        · rw [List.find?_cons_of_neg _ (by simp [ho]),
            List.find?_cons_of_neg _ (by simp [ho])]
          exact ih
  · rw [if_neg hp, List.find?_append]
    have hnone : ([((jobId : String), r)].find? (fun j => j.1 = other)) = none := by
      rw [List.find?_eq_none]
      intro x hx
      simp only [List.mem_singleton] at hx
      subst hx
      simp [Ne.symm hne]
    rw [hnone]
    cases jobs.find? (fun j => j.1 = other) <;> rfl

/-- Helper: membership in `zadd` means the fresh entry or an untouched old
entry with a different key. -/
theorem zadd_mem {q : List (String × Int)} {jobId : String} {p : Int}
    {f : String × Int} (h : f ∈ zadd q jobId p) :
    f = (jobId, p) ∨ (f ∈ q ∧ f.1 ≠ jobId) := by
  unfold zadd at h
  by_cases hp : q.any (fun e => e.1 = jobId)
  · rw [if_pos hp] at h
    rcases List.mem_map.mp h with ⟨e, he, hfe⟩
    by_cases hx : e.1 = jobId
    · rw [if_pos hx] at hfe
      exact Or.inl hfe.symm
    · rw [if_neg hx] at hfe
      subst hfe
      exact Or.inr ⟨he, hx⟩
  · rw [if_neg hp] at h
    rcases List.mem_append.mp h with h | h
    · right
      refine ⟨h, ?_⟩
      intro hk
      apply hp
      rw [List.any_eq_true]
      exact ⟨f, h, by simp [hk]⟩
    · simp only [List.mem_singleton] at h
      exact Or.inl h

/-- Helper: `enqueue` preserves store coherence. -/
theorem wf_enqueue (st : QueueStore) (hwf : WFStore st) (jobId jobData : String)
    (p : Int) : WFStore (enqueue st jobId jobData p) := by
  intro e he
  rcases zadd_mem he with rfl | ⟨hq, hne⟩
  · show ((hset st.jobs jobId ⟨jobData, "pending", p⟩).find?
        (fun j => j.1 = jobId)).map (fun j => j.2.priority) = some p
    rw [find?_hset_self]
    rfl
  · show ((hset st.jobs jobId ⟨jobData, "pending", p⟩).find?
        (fun j => j.1 = e.1)).map (fun j => j.2.priority) = some e.2
    rw [find?_hset_other st.jobs jobId e.1 _ hne]
    exact hwf e hq

/-- Helper: under store coherence a successful pop is returned to the caller
with its queue score as the stored priority. -/
theorem dequeue_pop {st : QueueStore} {e : String × Int} {rest : List (String × Int)}
    (hwf : WFStore st) (h : zpopmin st.queue = some (e, rest)) :
    dequeue st = (some (e.1, e.2), ⟨st.jobs, rest⟩) := by
  have hmem := (zpopmin_spec h).1
  have hfind := hwf e hmem
  unfold dequeue
  rw [h]
  cases hf : st.jobs.find? (fun j => j.1 = e.1) with
  | none =>
    rw [hf] at hfind
    cases hfind
  | some v =>
    rw [hf] at hfind
    simp only [Option.map_some', Option.some.injEq] at hfind
    simp [hf, hfind]

/-- Helper: removing the popped member preserves store coherence. -/
theorem wf_dequeue {st : QueueStore} {e : String × Int} {rest : List (String × Int)}
    (hwf : WFStore st) (h : zpopmin st.queue = some (e, rest)) :
    WFStore ⟨st.jobs, rest⟩ := by
  intro f hf
  exact hwf f ((zpopmin_spec h).2.2.1 f hf)

/-- Helper: every priority yielded by repeated dequeuing is the score of an
entry of the starting queue. -/
theorem dequeuePriorities_scores :
    ∀ (n : Nat) (st : QueueStore), WFStore st →
      ∀ p ∈ dequeuePriorities n st, ∃ f ∈ st.queue, p = f.2 := by
  intro n
  induction n with
  | zero => intro st hwf p hp; simp [dequeuePriorities] at hp
  | succ n ih =>
    intro st hwf p hp
    cases hz : zpopmin st.queue with
    | none =>
      have hd : dequeue st = (Option.none, st) := by
        unfold dequeue
        rw [hz]
      simp [dequeuePriorities, hd] at hp
    | some er =>
      obtain ⟨e, rest⟩ := er
      have hd := dequeue_pop hwf hz
      simp only [dequeuePriorities, hd] at hp
      rcases List.mem_cons.mp hp with hpe | hp
      · exact ⟨e, (zpopmin_spec hz).1, hpe⟩
      · obtain ⟨f, hfq, hfp⟩ := ih ⟨st.jobs, rest⟩ (wf_dequeue hwf hz) p hp
        exact ⟨f, (zpopmin_spec hz).2.2.1 f hfq, hfp⟩

/-- Helper: the priorities yielded by repeated dequeuing are pairwise
non-decreasing. -/
theorem dequeuePriorities_sorted :
    ∀ (n : Nat) (st : QueueStore), WFStore st →
      List.Pairwise (fun a b : Int => a ≤ b) (dequeuePriorities n st) := by
  intro n
  induction n with
  | zero => intro st hwf; simp [dequeuePriorities]
  | succ n ih =>
    intro st hwf
    cases hz : zpopmin st.queue with
    | none =>
      have hd : dequeue st = (Option.none, st) := by
        unfold dequeue
        rw [hz]
      simp [dequeuePriorities, hd]
    | some er =>
      obtain ⟨e, rest⟩ := er
      have hd := dequeue_pop hwf hz
      have hwf1 : WFStore ⟨st.jobs, rest⟩ := wf_dequeue hwf hz
      simp only [dequeuePriorities, hd]
      refine List.Pairwise.cons ?_ (ih ⟨st.jobs, rest⟩ hwf1)
      intro b hb
      obtain ⟨f, hfq, hfp⟩ := dequeuePriorities_scores n ⟨st.jobs, rest⟩ hwf1 b hb
      rw [hfp]
      exact (zpopmin_spec hz).2.1 f ((zpopmin_spec hz).2.2.1 f hfq)

/-- C3: in a coherent store (which every sequence of enqueues produces,
since `enqueue` writes the same priority into the hash record and the queue
score, and `enqueue` preserves coherence), each dequeue yields the job whose
stored priority is minimal among the currently queued entries, and the
priorities of N successively dequeued jobs are pairwise non-decreasing. -/
theorem dequeue_minimal_and_sorted :
    (∀ (st : QueueStore) (e : String × Int) (rest : List (String × Int)),
       WFStore st → zpopmin st.queue = some (e, rest) →
       (dequeue st).1 = some (e.1, e.2) ∧ ∀ f ∈ rest, e.2 ≤ f.2) ∧
    (∀ (n : Nat) (st : QueueStore), WFStore st →
       List.Pairwise (fun a b : Int => a ≤ b) (dequeuePriorities n st)) ∧
    (∀ (st : QueueStore) (jobId jobData : String) (p : Int), WFStore st →
       WFStore (enqueue st jobId jobData p)) := by
  refine ⟨?_, ?_, ?_⟩
  · intro st e rest hwf hz
    constructor
    · rw [dequeue_pop hwf hz]
    · intro f hf
      exact (zpopmin_spec hz).2.1 f ((zpopmin_spec hz).2.2.1 f hf)
  · exact dequeuePriorities_sorted
  · intro st jobId jobData p hwf
    exact wf_enqueue st hwf jobId jobData p

/-- Witness for C3 at a concrete three-job store. -/
theorem dequeue_minimal_and_sorted_witness :
    WFStore demoStore ∧
    List.Pairwise (fun a b : Int => a ≤ b) (dequeuePriorities 3 demoStore) :=
  ⟨by decide, dequeue_minimal_and_sorted.2.1 3 demoStore (by decide)⟩

/-- Helper: updating a job record through its id is visible through the heap
lookup. -/
theorem heapGet_setStatus (heap : List (String × ApiJob)) (jobId : String)
    (st : JobStatus) (res err : Option String) :
    heapGet (setStatus heap jobId st res err) jobId =
      (heapGet heap jobId).map
        (fun j => { j with status := st, result := res, error := err }) := by
  induction heap with
  | nil => rfl
  | cons x xs ih =>
    simp only [setStatus, List.map_cons]
    by_cases hx : x.1 = jobId
    · rw [if_pos hx]
      unfold heapGet
      rw [List.find?_cons_of_pos _ (by simp [hx]), List.find?_cons_of_pos _ (by simp [hx])]
      rfl
    · rw [if_neg hx]
      unfold heapGet
      rw [List.find?_cons_of_neg _ (by simp [hx]), List.find?_cons_of_neg _ (by simp [hx])]
      exact ih

/-- C9 counterexample: after submitting one job and cancelling it while
Pending, the status query reports 404, and yet the already-scheduled
background task still runs the job dictionary it holds to the terminal
Completed state — the claim that the job never reaches a terminal state is
false on the code. -/
theorem cancel_pending_still_runs_counterexample :
    (cancelJob cancelDemo ("job1")).1 = CancelOutcome.cancelled ∧
    getJobStatus (cancelJob cancelDemo ("job1")).2 ("job1") = Except.error 404 ∧
    heapGet (processTask (cancelJob cancelDemo ("job1")).2 ("job1") true).heap ("job1") =
      some ⟨("job1"), JobStatus.completed, some ("html"), Option.none⟩ :=
  ⟨rfl, rfl, rfl⟩

/-- C9 (amended): cancelling a Pending job removes it from the `_jobs`
store, so a later status query reports 404, but the heap record and the
scheduled task survive, and running that task still drives the (no longer
queryable) record to a terminal state; cancelling a Running, Completed or
Failed job reports failure and changes nothing. -/
theorem cancel_job_behavior :
    (∀ (s : ApiState) (jobId : String) (j : ApiJob),
       s.store.Nodup → jobId ∈ s.store → heapGet s.heap jobId = some j →
       j.status = JobStatus.pending →
       (cancelJob s jobId).1 = CancelOutcome.cancelled ∧
       (cancelJob s jobId).2.store = s.store.erase jobId ∧
       getJobStatus (cancelJob s jobId).2 jobId = Except.error 404 ∧
       (cancelJob s jobId).2.heap = s.heap ∧
       (cancelJob s jobId).2.tasks = s.tasks ∧
       (jobId ∈ s.tasks →
         heapGet (processTask (cancelJob s jobId).2 jobId true).heap jobId =
           some { j with status := JobStatus.completed,
                         result := some ("html"), error := Option.none })) ∧
    (∀ (s : ApiState) (jobId : String) (j : ApiJob),
       jobId ∈ s.store → heapGet s.heap jobId = some j →
       j.status ≠ JobStatus.pending →
       (cancelJob s jobId).1 ≠ CancelOutcome.cancelled ∧ (cancelJob s jobId).2 = s) := by
  constructor
  · intro s jobId j hnd hmem hheap hpend
    have hrun : j.status ≠ JobStatus.running := by rw [hpend]; decide
    have hfin : ¬(j.status = JobStatus.completed ∨ j.status = JobStatus.failed) := by
      rw [hpend]; decide
    have hc : cancelJob s jobId =
        (CancelOutcome.cancelled, ⟨s.heap, s.store.erase jobId, s.tasks⟩) := by
      unfold cancelJob
      rw [if_pos hmem, hheap]
      simp [hrun, hfin]
    rw [hc]
    have hnomem : jobId ∉ s.store.erase jobId := hnd.not_mem_erase
    refine ⟨rfl, rfl, ?_, rfl, rfl, ?_⟩
    · unfold getJobStatus
      rw [if_neg hnomem]
    · intro htask
      unfold processTask
      rw [if_pos htask]
      show heapGet (setStatus s.heap jobId JobStatus.completed (some ("html"))
        Option.none) jobId = _
      rw [heapGet_setStatus, hheap]
      rfl
  · intro s jobId j hmem hheap hnp
    unfold cancelJob
    rw [if_pos hmem, hheap]
    cases hst : j.status with
    | pending => exact absurd hst hnp
    | running => simp [hst]
    | completed => simp [hst]
    | failed => simp [hst]

/-- Witness for the amended C9 at the concrete one-job state. -/
theorem cancel_job_behavior_witness :
    cancelDemo.store.Nodup ∧
    ((cancelJob cancelDemo ("job1")).1 = CancelOutcome.cancelled ∧
     (cancelJob cancelDemo ("job1")).2.store = cancelDemo.store.erase ("job1") ∧
     getJobStatus (cancelJob cancelDemo ("job1")).2 ("job1") = Except.error 404 ∧
     (cancelJob cancelDemo ("job1")).2.heap = cancelDemo.heap ∧
     (cancelJob cancelDemo ("job1")).2.tasks = cancelDemo.tasks ∧
     (("job1" : String) ∈ cancelDemo.tasks →
       heapGet (processTask (cancelJob cancelDemo ("job1")).2 ("job1") true).heap ("job1") =
         some { (⟨("job1"), JobStatus.pending, Option.none, Option.none⟩ : ApiJob) with
              status := JobStatus.completed, result := some ("html"),
              error := Option.none })) :=
  ⟨by decide,
   cancel_job_behavior.1 cancelDemo ("job1")
     ⟨("job1"), JobStatus.pending, Option.none, Option.none⟩
     (by decide) (by decide) (by decide) (by decide)⟩
